import Mathlib

/-!
# Verification of the item-catalog service

Shallow embedding of the Go item-catalog service (two handler variants:
the file-backed one in `src/unnamed/part_000` and the near-duplicate
variant in `src/go/app/main.go`), together with theorems settling the
specification claims about it.

The persisted `items.json` document is modelled as a `Doc`: absent
(`ReadFile` fails), valid JSON for an `Items` value, or existing but
unparseable (`json.Unmarshal` fails).  Handler outcomes are modelled as
`Except` values mirroring the HTTP status the handler writes.
-/

namespace ItemCatalog

/-- The `Item` struct: id, name, category and image file name
(`image_name`, Go zero value `""` when no image is attached). -/
structure Item where
  id : String
  name : String
  category : String
  image_name : String
deriving Repr, DecidableEq

/-- The catalog: the `items` field of the persisted `Items` document,
in insertion (append) order. -/
abbrev Catalog := List Item

/-- State of the persisted `items.json` document.
`missing`: `ioutil.ReadFile` fails (no document yet);
`valid its`: the document parses as `Items` with item list `its`;
`corrupt`: the document exists but `json.Unmarshal` fails on it. -/
inductive Doc where
  | missing
  | valid (its : Catalog)
  | corrupt
deriving Repr, DecidableEq

/-- The distinct persistence-layer failures the handlers can hit,
each surfaced as HTTP 500. -/
inductive StoreFailure where
  | readError       -- ioutil.ReadFile failed on an existing request path
  | parseError      -- json.Unmarshal failed (corrupt document)
  | hashError       -- io.Copy into the sha256 hasher failed
  | imageSaveError  -- os.Create or io.Copy for the image file failed
  | marshalError    -- json.Marshal of the updated Items failed
deriving Repr, DecidableEq

/-- HTTP-level handler failure: 400 (`http.Error` with StatusBadRequest),
404 (`http.NotFound`), or 500 (`http.Error` with StatusInternalServerError). -/
inductive HError where
  | badRequest (msg : String)
  | notFound
  | internalError (f : StoreFailure)
deriving Repr, DecidableEq

/-! ## Go library functions used by the handlers -/

/-- `strings.Contains(s, substr)`: whether `substr` is a (case-sensitive)
substring of `s`. -/
def goContains (s sub : String) : Bool :=
  decide (sub.data <:+: s.data)

/-- Loop of Go's `filepath.Ext`: scan the path from the right; stop at a
path separator with no extension, or return the suffix starting at the
first `.` found.  `rev` is the not-yet-scanned part of the path reversed,
`acc` the already-scanned tail of the path in original order. -/
def goExtLoop (acc : List Char) : List Char → List Char
  | [] => []
  | c :: rest =>
    if c = '/' then []
    else if c = '.' then '.' :: acc
    else goExtLoop (c :: acc) rest

/-- `filepath.Ext(path)`: the suffix of `path` beginning at the final dot
in the final path element; empty if there is none. -/
def goFilepathExt (path : String) : String :=
  String.mk (goExtLoop [] path.data.reverse)

/-! ## The item-search loop and Go slice semantics

A Go slice declared `var matchedItems []Item` is nil; `append` on nil
allocates.  `encoding/json` serializes a nil slice as `null` and a
non-nil slice as a JSON array, so the model keeps the nil/non-nil
distinction: `none` is the nil slice, `some l` a non-nil slice holding `l`. -/

/-- Go `append` on a possibly-nil slice. -/
def goAppend (s : Option (List Item)) (it : Item) : Option (List Item) :=
  match s with
  | none => some [it]
  | some l => some (l ++ [it])

/-- JSON value of an `[]Item` field as `encoding/json` produces it:
a nil slice becomes `null`, a non-nil slice becomes an array. -/
inductive JItems where
  | null
  | arr (its : List Item)
deriving Repr, DecidableEq

/-- `encoding/json` marshaling of a (possibly nil) `[]Item` slice. -/
def encodeItemsField : Option (List Item) → JItems
  | none => JItems.null
  | some l => JItems.arr l

/-- The match predicate of `searchItemsHandler`:
`strings.Contains(item.Name, keyword) || strings.Contains(item.Category, keyword)`. -/
def searchMatch (keyword : String) (it : Item) : Bool :=
  goContains it.name keyword || goContains it.category keyword

/-! ## Handlers of the file-backed variant (`src/unnamed/part_000`) -/

/-- The linear scan of `getItemHandler`: `for _, item := range items.Items
{ if item.ID == itemID { ... return } }`, first match wins. -/
def findItem (itemID : String) : List Item → Option Item
  | [] => none
  | it :: rest => if it.id == itemID then some it else findItem itemID rest

/-- `getItemHandler` (part_000): read `items.json` (500 on read error),
unmarshal (500 on parse error — this variant checks the error), scan for
the id, 404 if absent. -/
def getItemHandler (doc : Doc) (itemID : String) : Except HError Item :=
  match doc with
  | Doc.missing => Except.error (HError.internalError StoreFailure.readError)
  | Doc.corrupt => Except.error (HError.internalError StoreFailure.parseError)
  | Doc.valid its =>
    match findItem itemID its with
    | some it => Except.ok it
    | none => Except.error HError.notFound

/-- `searchItemsHandler` (part_000): 400 if the `keyword` query parameter
is missing or empty; read and unmarshal `items.json` (500 on failure,
checked); collect matching items by `append` into an initially nil slice;
respond with the slice. -/
def searchItemsHandler (doc : Doc) (keyword : String) :
    Except HError (Option (List Item)) :=
  if keyword == "" then
    Except.error (HError.badRequest "Keyword parameter is missing")
  else
    match doc with
    | Doc.missing => Except.error (HError.internalError StoreFailure.readError)
    | Doc.corrupt => Except.error (HError.internalError StoreFailure.parseError)
    | Doc.valid its =>
      Except.ok (its.foldl
        (fun acc it => if searchMatch keyword it then goAppend acc it else acc)
        none)

/-- `getItemsHandler` (part_000, the `GET /items` list endpoint): read
`items.json` and serve the raw bytes verbatim; 500 if the read fails
(in particular when no document exists yet).  The served body is the raw
persisted document, so the result carries the `Doc`. -/
def getItemsHandler (doc : Doc) : Except HError Doc :=
  match doc with
  | Doc.missing => Except.error (HError.internalError StoreFailure.readError)
  | d => Except.ok d

/-! ## Handlers of the `src/go/app/main.go` variant that differ -/

/-- `getItemHandler` in `main.go`: identical scan, but the
`json.Unmarshal` error is ignored, so on a corrupt document `items`
keeps its zero value (empty list) and the handler falls through to
`http.NotFound`. -/
def mainGoGetItemHandler (doc : Doc) (itemID : String) : Except HError Item :=
  match doc with
  | Doc.missing => Except.error (HError.internalError StoreFailure.readError)
  | Doc.corrupt =>
    -- Unmarshal failure ignored: scan of the zero-value empty list
    match findItem itemID [] with
    | some it => Except.ok it
    | none => Except.error HError.notFound
  | Doc.valid its =>
    match findItem itemID its with
    | some it => Except.ok it
    | none => Except.error HError.notFound

/-- `searchItemsHandler` in `main.go`: 400 on empty keyword; otherwise the
database query is an unfinished stub, `items` stays the nil slice and is
served as the response.  The persisted document is never consulted. -/
def mainGoSearchItemsHandler (keyword : String) :
    Except HError (Option (List Item)) :=
  if keyword == "" then
    Except.error (HError.badRequest "Keyword parameter is missing")
  else
    Except.ok none

/-! ## SHA-256 (`crypto/sha256`) and hex formatting (`fmt.Sprintf("%x", ...)`)

Bytes are `Nat`s below 256, 32-bit words are `Nat`s reduced modulo `2^32`. -/

/-- Reduce modulo `2^32`. -/
def w32 (n : Nat) : Nat := n % 4294967296

/-- Right rotation of a 32-bit word by `n` bits. -/
def rotr32 (n x : Nat) : Nat := w32 ((x >>> n) ||| (x <<< (32 - n)))

/-- Bitwise complement of a 32-bit word. -/
def bnot32 (x : Nat) : Nat := x ^^^ 4294967295

/-- SHA-256 `Ch(e,f,g)`. -/
def shaCh (e f g : Nat) : Nat := (e &&& f) ^^^ (bnot32 e &&& g)

/-- SHA-256 `Maj(a,b,c)`. -/
def shaMaj (a b c : Nat) : Nat := (a &&& b) ^^^ (a &&& c) ^^^ (b &&& c)

/-- SHA-256 `Σ₀`. -/
def bigSig0 (x : Nat) : Nat := rotr32 2 x ^^^ rotr32 13 x ^^^ rotr32 22 x

/-- SHA-256 `Σ₁`. -/
def bigSig1 (x : Nat) : Nat := rotr32 6 x ^^^ rotr32 11 x ^^^ rotr32 25 x

/-- SHA-256 `σ₀`. -/
def smallSig0 (x : Nat) : Nat := rotr32 7 x ^^^ rotr32 18 x ^^^ (x >>> 3)

/-- SHA-256 `σ₁`. -/
def smallSig1 (x : Nat) : Nat := rotr32 17 x ^^^ rotr32 19 x ^^^ (x >>> 10)

/-- The 64 SHA-256 round constants (decimal). -/
def K256 : List Nat :=
  [1116352408, 1899447441, 3049323471, 3921009573, 961987163, 1508970993,
   2453635748, 2870763221, 3624381080, 310598401, 607225278, 1426881987,
   1925078388, 2162078206, 2614888103, 3248222580, 3835390401, 4022224774,
   264347078, 604807628, 770255983, 1249150122, 1555081692, 1996064986,
   2554220882, 2821834349, 2952996808, 3210313671, 3336571891, 3584528711,
   113926993, 338241895, 666307205, 773529912, 1294757372, 1396182291,
   1695183700, 1986661051, 2177026350, 2456956037, 2730485921, 2820302411,
   3259730800, 3345764771, 3516065817, 3600352804, 4094571909, 275423344,
   430227734, 506948616, 659060556, 883997877, 958139571, 1322822218,
   1537002063, 1747873779, 1955562222, 2024104815, 2227730452, 2361852424,
   2428436474, 2756734187, 3204031479, 3329325298]

/-- Big-endian byte rendering of `n` on `k` bytes. -/
def beBytes : Nat → Nat → List Nat
  | 0, _ => []
  | k + 1, n => beBytes k (n / 256) ++ [n % 256]

/-- SHA-256 padding: append `0x80`, zeros up to 56 mod 64, and the
bit length as a 64-bit big-endian integer. -/
def sha256pad (msg : List Nat) : List Nat :=
  let len := msg.length
  let zeros := (64 + 55 - len % 64) % 64
  msg ++ [128] ++ List.replicate zeros 0 ++ beBytes 8 (len * 8)

/-- Split the padded message into 64-byte blocks. -/
def toBlocks : List Nat → List (List Nat)
  | [] => []
  | b :: rest => (b :: rest.take 63) :: toBlocks (rest.drop 63)
termination_by l => l.length
decreasing_by simp [List.length_drop]; omega

/-- Group bytes into 32-bit big-endian words. -/
def toWords : List Nat → List Nat
  | b0 :: b1 :: b2 :: b3 :: rest =>
    (b0 * 16777216 + b1 * 65536 + b2 * 256 + b3) :: toWords rest
  | _ => []

/-- Extend the 16-word message schedule by `fuel` further words. -/
def schedAux : Nat → List Nat → List Nat
  | 0, ws => ws
  | fuel + 1, ws =>
    let i := ws.length
    let v := w32 (smallSig1 (ws.getD (i - 2) 0) + ws.getD (i - 7) 0 +
                  smallSig0 (ws.getD (i - 15) 0) + ws.getD (i - 16) 0)
    schedAux fuel (ws ++ [v])

/-- The full 64-word message schedule of one block. -/
def scheduleW (block : List Nat) : List Nat := schedAux 48 (toWords block)

/-- The eight 32-bit working variables of the compression function. -/
structure H8 where
  a : Nat
  b : Nat
  c : Nat
  d : Nat
  e : Nat
  f : Nat
  g : Nat
  h : Nat
deriving Repr, DecidableEq

/-- Initial SHA-256 hash value (decimal). -/
def sha256init : H8 :=
  ⟨1779033703, 3144134277, 1013904242, 2773480762,
   1359893119, 2600822924, 528734635, 1541459225⟩

/-- One round of the SHA-256 compression function. -/
def compressStep (s : H8) (k w : Nat) : H8 :=
  let t1 := w32 (s.h + bigSig1 s.e + shaCh s.e s.f s.g + k + w)
  let t2 := w32 (bigSig0 s.a + shaMaj s.a s.b s.c)
  ⟨w32 (t1 + t2), s.a, s.b, s.c, w32 (s.d + t1), s.e, s.f, s.g⟩

/-- Process one 64-byte block. -/
def compressBlock (h : H8) (block : List Nat) : H8 :=
  let s := ((K256.zip (scheduleW block)).foldl
    (fun s kw => compressStep s kw.1 kw.2) h)
  ⟨w32 (h.a + s.a), w32 (h.b + s.b), w32 (h.c + s.c), w32 (h.d + s.d),
   w32 (h.e + s.e), w32 (h.f + s.f), w32 (h.g + s.g), w32 (h.h + s.h)⟩

/-- SHA-256 digest of a byte sequence, as the 32 digest bytes
(`hash.Sum(nil)`). -/
def sha256Bytes (msg : List Nat) : List Nat :=
  let f := (toBlocks (sha256pad msg)).foldl compressBlock sha256init
  beBytes 4 f.a ++ beBytes 4 f.b ++ beBytes 4 f.c ++ beBytes 4 f.d ++
  beBytes 4 f.e ++ beBytes 4 f.f ++ beBytes 4 f.g ++ beBytes 4 f.h

/-- Lowercase hex digit. -/
def hexDigit (n : Nat) : Char :=
  if n < 10 then Char.ofNat (48 + n) else Char.ofNat (87 + n)

/-- `fmt.Sprintf("%x", bs)`: lowercase hex rendering of a byte sequence. -/
def hexOfBytes (bs : List Nat) : String :=
  String.mk (bs.foldr (fun b acc => hexDigit (b / 16 % 16) :: hexDigit (b % 16) :: acc) [])

/-- `fmt.Sprintf("%x", hash.Sum(nil))`: hex SHA-256 digest of `msg`. -/
def sha256Hex (msg : List Nat) : String := hexOfBytes (sha256Bytes msg)

/-! ## Id generation: `strconv.FormatInt(time.Now().UnixNano(), 10)` -/

/-- Decimal digit character. -/
def digitChar10 (d : Nat) : Char := Char.ofNat (48 + d)

/-- Decimal rendering of a natural number, most significant digit first. -/
def natDecChars (n : Nat) : List Char :=
  if n = 0 then ['0'] else ((Nat.digits 10 n).map digitChar10).reverse

/-- `strconv.FormatInt(i, 10)`: decimal rendering of a (64-bit) integer,
with a leading minus sign for negative values. -/
def goFormatInt (i : Int) : String :=
  if i < 0 then String.mk ('-' :: natDecChars i.natAbs)
  else String.mk (natDecChars i.natAbs)

/-- Numeric value of a decimal digit character. -/
def charVal (c : Char) : Nat := c.toNat - 48

/-- Parse a most-significant-first decimal digit string back to a `Nat`
(left inverse of `natDecChars`). -/
def parseNatChars (cs : List Char) : Nat :=
  Nat.ofDigits 10 (cs.reverse.map charVal)

/-- Parse the decimal rendering of an integer back to an `Int`
(left inverse of `goFormatInt`). -/
def parseGoInt (s : String) : Int :=
  match s.data with
  | [] => 0
  | c :: rest =>
    if c = '-' then -(parseNatChars rest : Int) else (parseNatChars (c :: rest) : Int)

/-! ## `postItemsHandler` (part_000; `itemsHandler` POST branch of
`main.go` is line-for-line identical) -/

/-- Environment of one `postItemsHandler` call: the `time.Now().UnixNano()`
reading and the success/failure of each I/O step the handler performs.
`writeFileOk` is the outcome of the final `ioutil.WriteFile` — the code
ignores its error return. -/
structure PostEnv where
  now : Int
  hashOk : Bool
  imgCreateOk : Bool
  imgWriteOk : Bool
  marshalOk : Bool
  writeFileOk : Bool

/-- A parsed `POST /items` request: whether `ParseMultipartForm` succeeded,
the `name` and `category` form values, and the `image` form file
(content bytes and `header.Filename`), absent when `r.FormFile` fails. -/
structure PostReq where
  parseOk : Bool
  name : String
  category : String
  image : Option (List Nat × String)

/-- Observable outcome of one `postItemsHandler` call: the HTTP response
(success carries the 201 body message), the `Item` value the handler
constructed and appended (when it got that far), and the state of the
persisted document after the call. -/
structure PostOutcome where
  resp : Except HError String
  created : Option Item
  doc : Doc
deriving Repr

/-- The image name stored by the handler:
`fmt.Sprintf("%x", hash.Sum(nil)) + filepath.Ext(header.Filename)`. -/
def hashedImageName (content : List Nat) (filename : String) : String :=
  sha256Hex content ++ goFilepathExt filename

/-- Lines 107–111 of the POST handler: `var items Items` followed by
`ReadFile` and, only when the read succeeded, `json.Unmarshal` with its
error ignored — so a missing document (read error) and a corrupt document
(unmarshal error) both leave `items` at its zero value, the empty list. -/
def loadedItemsIgnoringErrors : Doc → Catalog
  | Doc.valid l => l
  | Doc.missing => []
  | Doc.corrupt => []

/-- `postItemsHandler` (part_000 lines 58–122): parse the form (400 on
failure), build the item with a timestamp id, require the image (400 when
absent), hash it (500 on failure), store it under the content hash (500 on
failure), read `items.json` — skipping unmarshal when the read fails and
IGNORING the unmarshal error when parsing fails, so a missing or corrupt
document both leave `items` at its zero value — append, marshal (500 on
failure), and `ioutil.WriteFile` the result with the error IGNORED,
then respond 201 `"item received: <name>"`. -/
def postItemsHandler (env : PostEnv) (req : PostReq) (doc : Doc) : PostOutcome :=
  if !req.parseOk then
    ⟨Except.error (HError.badRequest "multipart parse error"), none, doc⟩
  else
    let id := goFormatInt env.now
    match req.image with
    | none => ⟨Except.error (HError.badRequest "Image is required"), none, doc⟩
    | some (content, filename) =>
      if !env.hashOk then
        ⟨Except.error (HError.internalError StoreFailure.hashError), none, doc⟩
      else
        let item : Item := ⟨id, req.name, req.category, hashedImageName content filename⟩
        if !env.imgCreateOk then
          ⟨Except.error (HError.internalError StoreFailure.imageSaveError), none, doc⟩
        else if !env.imgWriteOk then
          ⟨Except.error (HError.internalError StoreFailure.imageSaveError), none, doc⟩
        else
          let newItems := loadedItemsIgnoringErrors doc ++ [item]
          if !env.marshalOk then
            ⟨Except.error (HError.internalError StoreFailure.marshalError), none, doc⟩
          else
            -- WriteFile's error is ignored: the 201 response is sent either way
            ⟨Except.ok ("item received: " ++ req.name), some item,
             if env.writeFileOk then Doc.valid newItems else doc⟩

/-! ## Sequential `createItem` runs (for the id-uniqueness claim) -/

/-- Arguments of one `createItem` call in a sequential run: the
`UnixNano` reading observed by the call and the request fields. -/
structure CreateCall where
  ts : Int
  name : String
  category : String
  content : List Nat
  filename : String

/-- Environment where every I/O step succeeds and the clock reads `ts`. -/
def allOkEnv (ts : Int) : PostEnv := ⟨ts, true, true, true, true, true⟩

/-- The request of a `CreateCall`. -/
def callReq (c : CreateCall) : PostReq :=
  ⟨true, c.name, c.category, some (c.content, c.filename)⟩

/-- The item a successful `createItem` call appends. -/
def itemOfCall (c : CreateCall) : Item :=
  ⟨goFormatInt c.ts, c.name, c.category, hashedImageName c.content c.filename⟩

/-- Run a sequence of `createItem` calls (all I/O succeeding) against the
persisted document, single-writer, threading the document through. -/
def runCreates (doc : Doc) : List CreateCall → Doc
  | [] => doc
  | c :: rest => runCreates (postItemsHandler (allOkEnv c.ts) (callReq c) doc).doc rest

/-! ## Slice bookkeeping used to state the search results -/

/-- The Go slice holding exactly the elements of `l` the way the search
loop builds it: nil when `l` is empty, non-nil otherwise. -/
def sliceOfList (l : List Item) : Option (List Item) :=
  match l with
  | [] => none
  | _ => some l

/-- Append a whole list to a possibly-nil slice (`goAppend` iterated);
used to characterize the search loop's fold. -/
def sliceExtend (acc : Option (List Item)) (l : List Item) : Option (List Item) :=
  match l with
  | [] => acc
  | _ =>
    match acc with
    | none => some l
    | some a => some (a ++ l)

/-! ## Concrete inputs used by the witness theorems
(the catalog of the spec's search example) -/

/-- The Shoe/Fashion item of the spec's search example. -/
def shoeItem : Item := ⟨"1", "Shoe", "Fashion", ""⟩

/-- The Book/Media item of the spec's search example. -/
def bookItem : Item := ⟨"2", "Book", "Media", ""⟩

/-- The two-item catalog of the spec's search example. -/
def demoCatalog : Catalog := [shoeItem, bookItem]

/-! ## Helper lemmas -/

theorem sliceExtend_none (l : List Item) : sliceExtend none l = sliceOfList l := by
  cases l <;> rfl

/-- The search loop's fold appends exactly the filtered items to the
accumulator slice. -/
theorem foldl_goAppend (p : Item → Bool) (l : List Item) (acc : Option (List Item)) :
    l.foldl (fun acc it => if p it then goAppend acc it else acc) acc
      = sliceExtend acc (l.filter p) := by
  induction l generalizing acc with
  | nil => rfl
  | cons x xs ih =>
    by_cases hx : p x
    · rw [List.foldl_cons, if_pos hx, ih, List.filter_cons_of_pos hx]
      cases acc <;> cases hfx : xs.filter p <;> simp [goAppend, sliceExtend]
    · rw [List.foldl_cons, if_neg hx, ih, List.filter_cons_of_neg hx]

/-- A non-empty keyword sends `searchItemsHandler` down the filter path. -/
theorem searchItemsHandler_valid (cat : Catalog) (kw : String) (hkw : kw ≠ "") :
    searchItemsHandler (Doc.valid cat) kw
      = Except.ok (sliceOfList (cat.filter (searchMatch kw))) := by
  have hbeq : (kw == "") = false := by simpa using hkw
  rw [searchItemsHandler, hbeq]
  simp only [Bool.false_eq_true, if_false]
  rw [foldl_goAppend, sliceExtend_none]

theorem findItem_of_forall_ne (id : String) (l : List Item)
    (h : ∀ x ∈ l, x.id ≠ id) : findItem id l = none := by
  induction l with
  | nil => rfl
  | cons x xs ih =>
    have hx : (x.id == id) = false := by
      simpa using h x (List.mem_cons_self x xs)
    rw [findItem, hx]
    simp only [Bool.false_eq_true, if_false]
    exact ih fun y hy => h y (List.mem_cons_of_mem x hy)

/-- The scan returns the first item (in list order) whose id matches. -/
theorem findItem_first (id : String) (l : List Item) (h : ∃ x ∈ l, x.id = id) :
    ∃ pre it post, l = pre ++ it :: post ∧ it.id = id ∧
      (∀ x ∈ pre, x.id ≠ id) ∧ findItem id l = some it := by
  induction l with
  | nil => simp at h
  | cons y ys ih =>
    by_cases hy : y.id = id
    · refine ⟨[], y, ys, rfl, hy, by simp, ?_⟩
      rw [findItem, show (y.id == id) = true by simpa using hy]
      rfl
    · have h' : ∃ x ∈ ys, x.id = id := by
        rcases h with ⟨x, hx, hxid⟩
        rcases List.mem_cons.mp hx with rfl | hx'
        · exact absurd hxid hy
        · exact ⟨x, hx', hxid⟩
      obtain ⟨pre, it, post, heq, hit, hpre, hfind⟩ := ih h'
      refine ⟨y :: pre, it, post, by rw [heq, List.cons_append], hit, ?_, ?_⟩
      · intro x hx
        rcases List.mem_cons.mp hx with rfl | hx'
        · exact hy
        · exact hpre x hx'
      · rw [findItem, show (y.id == id) = false by simpa using hy]
        simpa using hfind

/-- Scanning a catalog extended with a fresh item finds that item. -/
theorem findItem_append_fresh (l : List Item) (it : Item)
    (h : ∀ x ∈ l, x.id ≠ it.id) : findItem it.id (l ++ [it]) = some it := by
  induction l with
  | nil => simp [findItem]
  | cons x xs ih =>
    have hx : (x.id == it.id) = false := by
      simpa using h x (List.mem_cons_self x xs)
    rw [List.cons_append, findItem, hx]
    simp only [Bool.false_eq_true, if_false]
    exact ih fun y hy => h y (List.mem_cons_of_mem x hy)

theorem charVal_digitChar10 {d : Nat} (hd : d < 10) :
    charVal (digitChar10 d) = d := by
  interval_cases d <;> decide

theorem digitChar10_ne_dash {d : Nat} (hd : d < 10) : digitChar10 d ≠ '-' := by
  interval_cases d <;> decide

theorem natDecChars_ne_nil (n : Nat) : natDecChars n ≠ [] := by
  rw [natDecChars]
  by_cases h0 : n = 0
  · simp [h0]
  · simp [h0, Nat.digits_ne_nil_iff_ne_zero]

theorem mem_natDecChars_ne_dash (n : Nat) (c : Char) (hc : c ∈ natDecChars n) :
    c ≠ '-' := by
  rw [natDecChars] at hc
  by_cases h0 : n = 0
  · rw [if_pos h0] at hc
    simp at hc
    subst hc
    decide
  · rw [if_neg h0] at hc
    rw [List.mem_reverse] at hc
    obtain ⟨d, hd, rfl⟩ := List.mem_map.mp hc
    exact digitChar10_ne_dash (Nat.digits_lt_base (by norm_num) hd)

theorem parseNat_natDecChars (n : Nat) : parseNatChars (natDecChars n) = n := by
  by_cases h0 : n = 0
  · subst h0; decide
  · rw [natDecChars, if_neg h0, parseNatChars, List.reverse_reverse, List.map_map]
    have hmap : (Nat.digits 10 n).map (charVal ∘ digitChar10) = Nat.digits 10 n := by
      have := List.map_congr_left (l := Nat.digits 10 n)
        (f := charVal ∘ digitChar10) (g := id)
        (fun d hd => charVal_digitChar10 (Nat.digits_lt_base (by norm_num) hd))
      simpa using this
    rw [hmap, Nat.ofDigits_digits]

theorem parseGoInt_mk_no_dash (cs : List Char) (hne : cs ≠ [])
    (hnd : ∀ c ∈ cs, c ≠ '-') :
    parseGoInt (String.mk cs) = (parseNatChars cs : Int) := by
  rcases cs with _ | ⟨c, rest⟩
  · exact absurd rfl hne
  · simp [parseGoInt, hnd c (List.mem_cons_self c rest)]

theorem parseGoInt_goFormatInt (i : Int) : parseGoInt (goFormatInt i) = i := by
  rw [goFormatInt]
  by_cases hneg : i < 0
  · rw [if_pos hneg]
    have hred : parseGoInt (String.mk ('-' :: natDecChars i.natAbs))
        = -(parseNatChars (natDecChars i.natAbs) : Int) := by
      simp [parseGoInt]
    rw [hred, parseNat_natDecChars]
    omega
  · rw [if_neg hneg]
    rw [parseGoInt_mk_no_dash _ (natDecChars_ne_nil _)
      (fun c hc => mem_natDecChars_ne_dash _ c hc)]
    rw [parseNat_natDecChars]
    omega

theorem goFormatInt_injective : Function.Injective goFormatInt := by
  intro a b h
  have ha := parseGoInt_goFormatInt a
  rw [h, parseGoInt_goFormatInt] at ha
  exact ha.symm

/-- Full evaluation of a `postItemsHandler` call in which every I/O step
succeeds: 201 response, the constructed item, and the rewritten document. -/
theorem postItemsHandler_allOk (ts : Int) (name category : String)
    (content : List Nat) (filename : String) (doc : Doc) :
    postItemsHandler (allOkEnv ts) ⟨true, name, category, some (content, filename)⟩ doc
      = ⟨Except.ok ("item received: " ++ name),
         some ⟨goFormatInt ts, name, category, hashedImageName content filename⟩,
         Doc.valid (loadedItemsIgnoringErrors doc ++
           [⟨goFormatInt ts, name, category, hashedImageName content filename⟩])⟩ := rfl

/-- Threading a sequence of all-I/O-succeeding `createItem` calls through
a valid document appends exactly the corresponding items, in call order. -/
theorem runCreates_valid (calls : List CreateCall) (its : Catalog) :
    runCreates (Doc.valid its) calls = Doc.valid (its ++ calls.map itemOfCall) := by
  induction calls generalizing its with
  | nil => simp [runCreates]
  | cons c rest ih =>
    rw [runCreates, callReq, postItemsHandler_allOk]
    show runCreates (Doc.valid (its ++ [itemOfCall c])) rest = _
    rw [ih, List.map_cons, List.append_assoc]
    rfl

/-! ## The claims -/

/-- Claim C1 (code bug): the claim says a `createItem` call made while the
persisted document exists but is unparseable propagates the load failure
and never calls replace.  The code instead ignores the `json.Unmarshal`
error: with a corrupt document and all subsequent I/O succeeding, the
handler answers 201 success and overwrites `items.json` with a catalog
holding only the new item — every previously stored item is lost. -/
theorem createItem_corrupt_silently_overwrites (ts : Int) (name category : String)
    (content : List Nat) (filename : String) :
    (postItemsHandler (allOkEnv ts) ⟨true, name, category, some (content, filename)⟩
        Doc.corrupt).resp = Except.ok ("item received: " ++ name) ∧
    (postItemsHandler (allOkEnv ts) ⟨true, name, category, some (content, filename)⟩
        Doc.corrupt).doc
      = Doc.valid [⟨goFormatInt ts, name, category, hashedImageName content filename⟩] :=
  ⟨rfl, rfl⟩

/-- Claim C2 (code bug): on a corrupt persisted document, the part_000
read handlers do surface the parse failure as a 500, but the `main.go`
variant's `getItemHandler` ignores the `json.Unmarshal` error and answers
404 NotFound as if the catalog were empty, and the `main.go` search stub
answers an empty result without consulting the document at all. -/
theorem corrupt_catalog_reads (itemID kw : String) (hkw : kw ≠ "") :
    getItemHandler Doc.corrupt itemID
      = Except.error (HError.internalError StoreFailure.parseError) ∧
    searchItemsHandler Doc.corrupt kw
      = Except.error (HError.internalError StoreFailure.parseError) ∧
    mainGoGetItemHandler Doc.corrupt itemID = Except.error HError.notFound ∧
    mainGoSearchItemsHandler kw = Except.ok none := by
  have hbeq : (kw == "") = false := by simpa using hkw
  refine ⟨rfl, ?_, rfl, ?_⟩
  · rw [searchItemsHandler, hbeq]
    simp
  · rw [mainGoSearchItemsHandler, hbeq]
    simp

/-- Witness for the corrupt-document read behavior at concrete inputs. -/
theorem corrupt_catalog_reads_witness :
    ("Sho" : String) ≠ "" ∧
    (getItemHandler Doc.corrupt "1"
        = Except.error (HError.internalError StoreFailure.parseError) ∧
      searchItemsHandler Doc.corrupt "Sho"
        = Except.error (HError.internalError StoreFailure.parseError) ∧
      mainGoGetItemHandler Doc.corrupt "1" = Except.error HError.notFound ∧
      mainGoSearchItemsHandler "Sho" = Except.ok none) :=
  ⟨by decide, corrupt_catalog_reads "1" "Sho" (by decide)⟩

/-- Claim C3 (code bug): the claim says a `createItem` whose catalog write
fails reports `StorageWriteError`.  The code ignores `ioutil.WriteFile`'s
error: with the write failing, the handler still answers 201
`"item received: <name>"` (in the model the previous document is left in
place; the real `WriteFile` may even truncate it). -/
theorem createItem_ignores_write_failure (ts : Int) (name category : String)
    (content : List Nat) (filename : String) (doc : Doc) :
    (postItemsHandler ⟨ts, true, true, true, true, false⟩
        ⟨true, name, category, some (content, filename)⟩ doc).resp
      = Except.ok ("item received: " ++ name) ∧
    (postItemsHandler ⟨ts, true, true, true, true, false⟩
        ⟨true, name, category, some (content, filename)⟩ doc).doc = doc :=
  ⟨rfl, rfl⟩

/-- Claim C4 (confirmed): over a loadable catalog, `searchItems` fails
with the 400 InvalidArgumentError exactly when the keyword is empty, and
otherwise returns exactly the items whose name or category contains the
keyword as a case-sensitive substring, in insertion order (`List.filter`
preserves order), with an empty — not erroneous — result when nothing
matches. -/
theorem searchItems_spec (cat : Catalog) (kw : String) :
    (searchItemsHandler (Doc.valid cat) kw
        = Except.error (HError.badRequest "Keyword parameter is missing") ↔ kw = "") ∧
    (kw ≠ "" → searchItemsHandler (Doc.valid cat) kw
        = Except.ok (sliceOfList (cat.filter (searchMatch kw)))) := by
  constructor
  · constructor
    · intro h
      by_contra hkw
      rw [searchItemsHandler_valid cat kw hkw] at h
      exact Except.noConfusion h
    · intro hkw
      subst hkw
      rfl
  · exact searchItemsHandler_valid cat kw

/-- Witness: the spec's search example on the Shoe/Book catalog. -/
theorem searchItems_spec_witness :
    searchItemsHandler (Doc.valid demoCatalog) "Sho" = Except.ok (some [shoeItem]) ∧
    searchItemsHandler (Doc.valid demoCatalog) "xyz" = Except.ok none ∧
    searchItemsHandler (Doc.valid demoCatalog) ""
      = Except.error (HError.badRequest "Keyword parameter is missing") := by
  refine ⟨?_, ?_, (searchItems_spec demoCatalog "").1.2 rfl⟩
  · rw [(searchItems_spec demoCatalog "Sho").2 (by decide)]
    exact congrArg Except.ok (by decide)
  · rw [(searchItems_spec demoCatalog "xyz").2 (by decide)]
    exact congrArg Except.ok (by decide)

/-- Claim C5 (confirmed): the stored image key of any item a
`postItemsHandler` call creates is `hex(SHA256(content)) + ext(filename)`
— a function of the content and the extension only, so identical bytes
under originally different file names with the same extension get the
same `image_name`. -/
theorem imageName_content_addressed (env : PostEnv) (req : PostReq) (doc : Doc)
    (content : List Nat) (filename : String)
    (himg : req.image = some (content, filename)) (it : Item)
    (hcr : (postItemsHandler env req doc).created = some it) :
    it.image_name = sha256Hex content ++ goFilepathExt filename ∧
    ∀ other : String, goFilepathExt other = goFilepathExt filename →
      it.image_name = hashedImageName content other := by
  rcases req with ⟨p, n, c, img⟩
  rcases env with ⟨ts, hok, cok, wok, mok, fok⟩
  have himg' : img = some (content, filename) := himg
  subst himg'
  cases p <;> cases hok <;> cases cok <;> cases wok <;> cases mok <;>
    simp [postItemsHandler] at hcr
  rcases hcr with rfl | rfl
  all_goals {
    refine ⟨rfl, fun other hext => ?_⟩
    show hashedImageName content filename = hashedImageName content other
    rw [hashedImageName, hashedImageName, hext]
  }

/-- Witness: the same two bytes uploaded under `a.jpg` and `b.jpg` get the
same content-addressed name. -/
theorem imageName_content_addressed_witness :
    ∃ it, (postItemsHandler (allOkEnv 5)
        ⟨true, "Shoe", "Fashion", some ([1, 2], "a.jpg")⟩ (Doc.valid [])).created
      = some it ∧
      it.image_name = sha256Hex [1, 2] ++ goFilepathExt "a.jpg" ∧
      it.image_name = hashedImageName [1, 2] "b.jpg" := by
  refine ⟨_, rfl, ?_, ?_⟩
  · exact (imageName_content_addressed (allOkEnv 5)
      ⟨true, "Shoe", "Fashion", some ([1, 2], "a.jpg")⟩ (Doc.valid []) [1, 2] "a.jpg"
      rfl _ rfl).1
  · exact (imageName_content_addressed (allOkEnv 5)
      ⟨true, "Shoe", "Fashion", some ([1, 2], "a.jpg")⟩ (Doc.valid []) [1, 2] "a.jpg"
      rfl _ rfl).2 "b.jpg" (by decide)

/-- Claim C6 (confirmed): a successful `createItem` on a loadable catalog
with a fresh timestamp id, followed by `getItem` with the created item's
id against the rewritten document, returns that item, whose name and
category match the inputs and whose `image_name` ends with the original
file extension. -/
theorem createItem_getItem_roundtrip (ts : Int) (name category : String)
    (content : List Nat) (filename : String) (cat : Catalog)
    (hfresh : ∀ x ∈ cat, x.id ≠ goFormatInt ts) :
    ∃ it,
      (postItemsHandler (allOkEnv ts) ⟨true, name, category, some (content, filename)⟩
          (Doc.valid cat)).resp = Except.ok ("item received: " ++ name) ∧
      (postItemsHandler (allOkEnv ts) ⟨true, name, category, some (content, filename)⟩
          (Doc.valid cat)).created = some it ∧
      (postItemsHandler (allOkEnv ts) ⟨true, name, category, some (content, filename)⟩
          (Doc.valid cat)).doc = Doc.valid (cat ++ [it]) ∧
      getItemHandler ((postItemsHandler (allOkEnv ts)
          ⟨true, name, category, some (content, filename)⟩ (Doc.valid cat)).doc) it.id
        = Except.ok it ∧
      it.name = name ∧ it.category = category ∧
      (goFilepathExt filename).data <:+ it.image_name.data := by
  refine ⟨⟨goFormatInt ts, name, category, hashedImageName content filename⟩,
    rfl, rfl, rfl, ?_, rfl, rfl, ?_⟩
  · rw [postItemsHandler_allOk]
    show getItemHandler (Doc.valid (cat ++
      [⟨goFormatInt ts, name, category, hashedImageName content filename⟩]))
        (goFormatInt ts) = _
    rw [getItemHandler]
    rw [show goFormatInt ts
        = (⟨goFormatInt ts, name, category, hashedImageName content filename⟩ : Item).id
      from rfl]
    rw [findItem_append_fresh cat _ hfresh]
  · exact ⟨(sha256Hex content).data, rfl⟩

/-- Witness: a concrete create-then-get round trip on the empty catalog. -/
theorem createItem_getItem_roundtrip_witness :
    ∃ it,
      (postItemsHandler (allOkEnv 7) ⟨true, "Shoe", "Fashion", some ([3], "c.png")⟩
          (Doc.valid [])).resp = Except.ok ("item received: " ++ "Shoe") ∧
      (postItemsHandler (allOkEnv 7) ⟨true, "Shoe", "Fashion", some ([3], "c.png")⟩
          (Doc.valid [])).created = some it ∧
      (postItemsHandler (allOkEnv 7) ⟨true, "Shoe", "Fashion", some ([3], "c.png")⟩
          (Doc.valid [])).doc = Doc.valid ([] ++ [it]) ∧
      getItemHandler ((postItemsHandler (allOkEnv 7)
          ⟨true, "Shoe", "Fashion", some ([3], "c.png")⟩ (Doc.valid [])).doc) it.id
        = Except.ok it ∧
      it.name = "Shoe" ∧ it.category = "Fashion" ∧
      (goFilepathExt "c.png").data <:+ it.image_name.data :=
  createItem_getItem_roundtrip 7 "Shoe" "Fashion" [3] "c.png" [] (by simp)

/-- Claim C7 (confirmed): over a loadable catalog, `getItem` returns the
first item in insertion order whose id matches, and fails with the 404
NotFoundError when no item has the requested id. -/
theorem getItem_first_match (cat : Catalog) (itemID : String) :
    ((∃ x ∈ cat, x.id = itemID) →
      ∃ pre it post, cat = pre ++ it :: post ∧ it.id = itemID ∧
        (∀ x ∈ pre, x.id ≠ itemID) ∧
        getItemHandler (Doc.valid cat) itemID = Except.ok it) ∧
    ((∀ x ∈ cat, x.id ≠ itemID) →
      getItemHandler (Doc.valid cat) itemID = Except.error HError.notFound) := by
  constructor
  · intro h
    obtain ⟨pre, it, post, heq, hit, hpre, hfind⟩ := findItem_first itemID cat h
    exact ⟨pre, it, post, heq, hit, hpre, by rw [getItemHandler, hfind]⟩
  · intro h
    rw [getItemHandler, findItem_of_forall_ne itemID cat h]

/-- Witness: `getItem` on the demo catalog, hitting and missing. -/
theorem getItem_first_match_witness :
    (∃ pre it post, demoCatalog = pre ++ it :: post ∧ it.id = "2" ∧
        (∀ x ∈ pre, x.id ≠ "2") ∧
        getItemHandler (Doc.valid demoCatalog) "2" = Except.ok it) ∧
    getItemHandler (Doc.valid demoCatalog) "nonexistent"
      = Except.error HError.notFound :=
  ⟨(getItem_first_match demoCatalog "2").1 (by decide),
   (getItem_first_match demoCatalog "nonexistent").2 (by decide)⟩

/-- Claim C8 (confirmed): a sequence of single-writer `createItem` calls
whose `UnixNano` readings strictly increase (which is what sequential
calls observe on a nanosecond wall clock) produces pairwise-distinct ids
whose numeric values strictly increase, so the id-uniqueness invariant of
the catalog is preserved through the whole run. -/
theorem createItem_ids_unique (calls : List CreateCall)
    (hmono : (calls.map CreateCall.ts).Pairwise (· < ·)) :
    ∃ cat, runCreates (Doc.valid []) calls = Doc.valid cat ∧
      cat.map Item.id = calls.map (fun c => goFormatInt c.ts) ∧
      (cat.map Item.id).Pairwise (fun a b => a ≠ b) ∧
      (cat.map Item.id).Pairwise (fun a b => parseGoInt a < parseGoInt b) := by
  have hts : calls.Pairwise (fun a b => a.ts < b.ts) := List.pairwise_map.mp hmono
  refine ⟨calls.map itemOfCall, by simpa using runCreates_valid calls [], ?_, ?_, ?_⟩
  · rw [List.map_map]
    rfl
  · rw [List.map_map, List.pairwise_map]
    refine hts.imp fun hlt heq => ?_
    have := goFormatInt_injective heq
    simp only [itemOfCall] at this
    omega
  · rw [List.map_map, List.pairwise_map]
    refine hts.imp fun hlt => ?_
    show parseGoInt (goFormatInt _) < parseGoInt (goFormatInt _)
    rw [parseGoInt_goFormatInt, parseGoInt_goFormatInt]
    exact hlt

/-- Witness: two sequential creations at nanosecond readings 1 and 2. -/
theorem createItem_ids_unique_witness :
    (([⟨1, "A", "X", [0], "a.png"⟩, ⟨2, "B", "Y", [1], "b.png"⟩] :
        List CreateCall).map CreateCall.ts).Pairwise (· < ·) ∧
    ∃ cat, runCreates (Doc.valid [])
        [⟨1, "A", "X", [0], "a.png"⟩, ⟨2, "B", "Y", [1], "b.png"⟩] = Doc.valid cat ∧
      cat.map Item.id = ([⟨1, "A", "X", [0], "a.png"⟩, ⟨2, "B", "Y", [1], "b.png"⟩] :
          List CreateCall).map (fun c => goFormatInt c.ts) ∧
      (cat.map Item.id).Pairwise (fun a b => a ≠ b) ∧
      (cat.map Item.id).Pairwise (fun a b => parseGoInt a < parseGoInt b) :=
  ⟨by decide, createItem_ids_unique _ (by decide)⟩

/-- Claim C9 counterexample: with no persisted document, the list endpoint
does NOT succeed with an empty catalog — `getItemsHandler` propagates the
`ReadFile` failure as a 500, refuting the claim at this concrete input. -/
theorem listItems_missing_errors :
    getItemsHandler Doc.missing
      = Except.error (HError.internalError StoreFailure.readError) := rfl

/-- Claim C9 (amended): when no persisted document exists, the POST
handler's load step does treat the catalog as empty (the created item
becomes the sole persisted entry, no error), but `listItems` fails with a
storage error because it serves the raw file and propagates the read
failure. -/
theorem missing_doc_behavior (ts : Int) (name category : String)
    (content : List Nat) (filename : String) :
    getItemsHandler Doc.missing
      = Except.error (HError.internalError StoreFailure.readError) ∧
    (postItemsHandler (allOkEnv ts) ⟨true, name, category, some (content, filename)⟩
        Doc.missing).resp = Except.ok ("item received: " ++ name) ∧
    (postItemsHandler (allOkEnv ts) ⟨true, name, category, some (content, filename)⟩
        Doc.missing).doc
      = Doc.valid [⟨goFormatInt ts, name, category, hashedImageName content filename⟩] :=
  ⟨rfl, rfl, rfl⟩

/-- Claim C10 (confirmed): a search with a non-empty keyword matching no
item leaves the result slice nil (never appended to), and `encoding/json`
serializes that nil slice as `null`, which is distinct from the empty
array `[]`. -/
theorem search_no_match_nil_slice (cat : Catalog) (kw : String) (hkw : kw ≠ "")
    (hnone : ∀ it ∈ cat, searchMatch kw it = false) :
    searchItemsHandler (Doc.valid cat) kw = Except.ok none ∧
    encodeItemsField none = JItems.null ∧
    JItems.null ≠ JItems.arr [] := by
  refine ⟨?_, rfl, by decide⟩
  rw [searchItemsHandler_valid cat kw hkw]
  have hfil : cat.filter (searchMatch kw) = [] := by
    rw [List.filter_eq_nil_iff]
    intro a ha
    simp [hnone a ha]
  rw [hfil]
  rfl

/-- Witness: searching the demo catalog for `"xyz"` serializes `null`. -/
theorem search_no_match_nil_slice_witness :
    searchItemsHandler (Doc.valid demoCatalog) "xyz" = Except.ok none ∧
    encodeItemsField none = JItems.null ∧
    JItems.null ≠ JItems.arr [] :=
  search_no_match_nil_slice demoCatalog "xyz" (by decide) (by decide)

end ItemCatalog
